import Mathlib

/-!
Verification of the tic-tac-toe game-state engine found in
`src/components/tic-tac-toe.tsx`.

The React component's state hooks are embedded as a `GameState` structure,
and each handler (`handleSquareClick`, `jumpToMove`, `resetGame`,
`createRoom`, ...) as a pure state-transformer translated line by line from
the source.  The board evaluator (`calculateWinner`), the one-move lookahead
(`findWinningMove`) and the computer policy (`makeComputerMove`) are pure in
the source already and are translated directly.
-/

namespace TicTacToe

/-- A placed mark.  The TS type `Player` is `"X" | "O" | null`; we model a
cell as `Option Player` with `none` for `null`. -/
inductive Player where
  | X
  | O
deriving DecidableEq, Repr

/-- A cell of the board: `null` (empty) or a mark. -/
abbrev Cell := Option Player

/-- The board: the `squares` array of 9 cells, row-major. -/
abbrev Board := List Cell

/-- Result type of `calculateWinner`: the TS value `Player | "draw" | null`.
`inProgress` stands for `null`. -/
inductive Outcome where
  | win (p : Player)
  | draw
  | inProgress
deriving DecidableEq, Repr

/-- The `lines` table inside `calculateWinner`: 3 rows, 3 columns,
2 diagonals, in source order. -/
def lines : List (Nat × Nat × Nat) :=
  [(0, 1, 2), (3, 4, 5), (6, 7, 8),
   (0, 3, 6), (1, 4, 7), (2, 5, 8),
   (0, 4, 8), (2, 4, 6)]

/-- One iteration of the winner loop:
`squares[a] && squares[a] === squares[b] && squares[a] === squares[c]`
returns `squares[a]` (the mark) when the triple matches, nothing otherwise.
Out-of-range reads are `undefined` in JS, i.e. empty, modelled by the
`getD _ none` default. -/
def lineWinner (b : Board) (l : Nat × Nat × Nat) : Option Player :=
  match b.getD l.1 none with
  | some p =>
      if b.getD l.2.1 none = some p ∧ b.getD l.2.2 none = some p then some p
      else none
  | none => none

/-- The `for` loop of `calculateWinner`: return the mark of the first
matching line, scanning `lines` in order. -/
def firstWin (b : Board) : List (Nat × Nat × Nat) → Option Player
  | [] => none
  | l :: ls =>
      match lineWinner b l with
      | some p => some p
      | none => firstWin b ls

/-- `calculateWinner(squares)`: first matching line wins; otherwise
`squares.every(square => square !== null)` means a draw; otherwise the game
is in progress (`null`). -/
def calculateWinner (b : Board) : Outcome :=
  match firstWin b lines with
  | some p => Outcome.win p
  | none =>
      if b.all (fun sq => sq.isSome) then Outcome.draw else Outcome.inProgress

/-- Spec-side reading of one triple: the mark `p` such that all three cells
are non-empty and equal to `p`. -/
def tripleMark (b : Board) (l : Nat × Nat × Nat) : Option Player :=
  match b.getD l.1 none, b.getD l.2.1 none, b.getD l.2.2 none with
  | some p, some q, some r => if p = q ∧ p = r then some p else none
  | _, _, _ => none

/-- Evaluator written from the spec's words: the first triple among the 8
fixed lines (in rows, columns, diagonals priority order) with all three
cells non-empty and equal determines the winner; if no triple wins and no
cell is empty the result is a draw; otherwise the game is in progress. -/
def evaluateSpec (b : Board) : Outcome :=
  match (lines.filterMap (fun l => tripleMark b l)).head? with
  | some p => Outcome.win p
  | none =>
      if b.all (fun sq => sq.isSome) then Outcome.draw else Outcome.inProgress

/-- A line `l` is a winning triple for `p` on `b`. -/
def winsLine (b : Board) (p : Player) (l : Nat × Nat × Nat) : Prop :=
  b.getD l.1 none = some p ∧ b.getD l.2.1 none = some p ∧
    b.getD l.2.2 none = some p

instance (b : Board) (p : Player) (l : Nat × Nat × Nat) :
    Decidable (winsLine b p l) := by
  unfold winsLine; infer_instance

/-- Player `p` owns some complete line of `b`. -/
def hasWin (b : Board) (p : Player) : Prop :=
  ∃ l ∈ lines, winsLine b p l

instance (b : Board) (p : Player) : Decidable (hasWin b p) := by
  unfold hasWin; infer_instance

/-- The other mark. -/
def Player.other : Player → Player
  | Player.X => Player.O
  | Player.O => Player.X

/-- The empty board `Array(9).fill(null)`. -/
def emptyBoard : Board := List.replicate 9 none

/-- Boards reachable by legal alternating play, together with whose turn it
is: play starts from the empty board with X to move, and a move places the
mover's mark on an empty cell of a game that is still in progress. -/
inductive ReachableAux : Board → Player → Prop
  | init : ReachableAux emptyBoard Player.X
  | move (b : Board) (p : Player) (i : Nat) :
      ReachableAux b p →
      calculateWinner b = Outcome.inProgress →
      i < 9 →
      b.getD i none = none →
      ReachableAux (b.set i (some p)) p.other

/-- A board reachable by legal alternating play. -/
def Reachable (b : Board) : Prop := ∃ p, ReachableAux b p

/-- Loop body of `findWinningMove` applied to a list of candidate indices:
for the first `i` with `squares[i] === null` such that placing `player`
there makes `calculateWinner` return that player, return `i`. -/
def findWinningMoveAux (b : Board) (p : Player) : List Nat → Int
  | [] => -1
  | i :: rest =>
      if b.getD i none = none ∧
          calculateWinner (b.set i (some p)) = Outcome.win p then
        (i : Int)
      else findWinningMoveAux b p rest

/-- `findWinningMove(squares, player)`: the `for (let i = 0; i <
squares.length; i++)` loop over candidate cells, returning `-1` when no
single move wins. -/
def findWinningMove (b : Board) (p : Player) : Int :=
  findWinningMoveAux b p (List.range b.length)

/-- `makeComputerMove()`, as a function of the current board returning the
index passed to `handleSquareClick` (or `none` when the function returns
without clicking).  The two `Math.floor(Math.random() * len)` draws are
modelled by the parameters `cornerPick` and `randPick`, reduced modulo the
number of candidates so that any parameter value denotes a valid random
draw.  `availableSquares` — built in the source as
`squares.map((sq, i) => sq === null ? i : -1).filter(i => i !== -1)` —
is the list of indices of empty cells in ascending order, embedded as a
filter of `List.range`. -/
def makeComputerMove (b : Board) (cornerPick randPick : Nat) : Option Nat :=
  if calculateWinner b ≠ Outcome.inProgress ∨ b.all (fun sq => sq.isSome) then
    none
  else
    let winningMove := findWinningMove b Player.O
    if winningMove ≠ -1 then some winningMove.toNat
    else
      let blockingMove := findWinningMove b Player.X
      if blockingMove ≠ -1 then some blockingMove.toNat
      else if b.getD 4 none = none then some 4
      else
        let availableCorners :=
          [0, 2, 6, 8].filter (fun i => b.getD i none = none)
        if 0 < availableCorners.length then
          some (availableCorners.getD (cornerPick % availableCorners.length) 0)
        else
          let availableSquares :=
            (List.range b.length).filter (fun i => b.getD i none = none)
          if 0 < availableSquares.length then
            some (availableSquares.getD (randPick % availableSquares.length) 0)
          else none

/-- One entry of the `history` state: the TS interface `GameHistory`.
`currentPlayer` has TS type `Player` (nullable), though every pushed entry
stores a concrete mark. -/
structure GameHistory where
  squares : Board
  currentPlayer : Cell
deriving DecidableEq, Repr

/-- The TS interface `SimulatedGame`: one in-memory "room". -/
structure SimulatedGame where
  id : String
  squares : Board
  isXNext : Bool
  playerX : String
  playerO : Option String
  winner : Outcome
deriving DecidableEq, Repr

/-- The game mode: `"local" | "computer" | "online"`.  (`localMode` because
`local` is reserved in Lean.) -/
inductive Mode where
  | localMode
  | computer
  | online
deriving DecidableEq, Repr

/-- The component's state hooks that the game logic reads and writes.
Presentation-only hooks (music, confetti, lobby visibility, clipboard,
window size) are out of scope and omitted. -/
structure GameState where
  squares : Board
  isXNext : Bool
  winner : Outcome
  history : List GameHistory
  currentMove : Nat
  gameMode : Mode
  roomCode : String
  isHost : Bool
  playerSymbol : Player
  opponentConnected : Bool
  isMyTurn : Bool
  simulatedGames : List (String × SimulatedGame)
  useSimulatedMode : Bool
deriving DecidableEq, Repr

/-- The initial values of the state hooks (`useState(...)` initializers):
empty board, X next, no winner, empty history, move 0, mode `"computer"`,
no room, host flag false, symbol X, opponent not connected, my turn,
no simulated games, simulated mode on. -/
def initialState : GameState where
  squares := emptyBoard
  isXNext := true
  winner := Outcome.inProgress
  history := []
  currentMove := 0
  gameMode := Mode.computer
  roomCode := ""
  isHost := false
  playerSymbol := Player.X
  opponentConnected := false
  isMyTurn := true
  simulatedGames := []
  useSimulatedMode := true

/-- Record read `simulatedGames[code]`. -/
def lookupGame (gs : List (String × SimulatedGame)) (k : String) :
    Option SimulatedGame :=
  match gs.find? (fun kv => kv.1 = k) with
  | some kv => some kv.2
  | none => none

/-- Record write `{ ...prev, [code]: game }`. -/
def insertGame (gs : List (String × SimulatedGame)) (k : String)
    (g : SimulatedGame) : List (String × SimulatedGame) :=
  (k, g) :: gs.filter (fun kv => kv.1 ≠ k)

/-- `updateSimulatedGame(gameId, updatedGame)` without its defensive
array check (our `Board` is an array by construction). -/
def updateSimulatedGame (s : GameState) (gameId : String)
    (g : SimulatedGame) : GameState :=
  { s with simulatedGames := insertGame s.simulatedGames gameId g }

/-- The signal sent to the UI collaborator when an operation is refused
(the "Time travel is not available in online mode" toast). -/
inductive Signal where
  | notAvailable
deriving DecidableEq, Repr

/-- `handleSquareClick(i)`: the guards reject (returning the state
unchanged) when there is a winner or the cell is occupied, when it is not
this client's turn online, when the opponent has not connected online, or
when it is the computer's turn in computer mode.  Otherwise the mark is
placed, turn state is updated (and the room mirrored in online simulated
mode), and a history entry is pushed after truncating at
`currentMove + 1`. -/
def handleSquareClick (s : GameState) (i : Nat) : GameState :=
  if s.winner ≠ Outcome.inProgress ∨ s.squares.getD i none ≠ none then s
  else if s.gameMode = Mode.online ∧ s.isMyTurn = false then s
  else if s.gameMode = Mode.online ∧ s.opponentConnected = false then s
  else if s.gameMode = Mode.computer ∧ s.isXNext = false then s
  else
    let newSquares :=
      if s.gameMode = Mode.online then s.squares.set i (some s.playerSymbol)
      else
        s.squares.set i (some (if s.isXNext then Player.X else Player.O))
    let s1 :=
      if s.gameMode ≠ Mode.online then { s with isXNext := !s.isXNext }
      else
        let s' := { s with isMyTurn := false }
        if s.useSimulatedMode = true ∧ s.roomCode ≠ "" then
          match lookupGame s.simulatedGames s.roomCode with
          | some game =>
              updateSimulatedGame s' s.roomCode
                { game with squares := newSquares, isXNext := !game.isXNext }
          | none => s'
        else s'
    let newHistory :=
      s.history.take (s.currentMove + 1) ++
        [{ squares := newSquares,
           currentPlayer := some (if s.isXNext then Player.X else Player.O) }]
    { s1 with
      squares := newSquares
      history := newHistory
      currentMove := newHistory.length - 1 }

/-- `jumpToMove(move)`: out-of-range indices return silently; in online
mode the move is refused with a toast; otherwise the pointer, board, turn
and winner are restored from `history[move]`. -/
def jumpToMove (s : GameState) (move : Int) : GameState × Option Signal :=
  if move < 0 ∨ (s.history.length : Int) ≤ move then (s, none)
  else if s.gameMode = Mode.online then (s, some Signal.notAvailable)
  else
    let m := move.toNat
    let entry := s.history.getD m { squares := [], currentPlayer := none }
    ({ s with
        currentMove := m
        squares := entry.squares
        isXNext := decide (entry.currentPlayer = some Player.O)
        winner := calculateWinner entry.squares }, none)

/-- `resetGame()`: board, turn, winner, history and pointer are cleared; in
online mode `isMyTurn` is recomputed from the player's symbol and the
room's board is cleared too. -/
def resetGame (s : GameState) : GameState :=
  let s0 : GameState :=
    { s with
      squares := emptyBoard
      isXNext := true
      winner := Outcome.inProgress
      history := []
      currentMove := 0 }
  if s.gameMode = Mode.online then
    let s1 := { s0 with isMyTurn := decide (s.playerSymbol = Player.X) }
    if s.useSimulatedMode = true ∧ s.roomCode ≠ "" then
      match lookupGame s.simulatedGames s.roomCode with
      | some game =>
          updateSimulatedGame s1 s.roomCode
            { game with
              squares := emptyBoard
              isXNext := true
              winner := Outcome.inProgress }
      | none => s1
    else s1
  else s0

/-- One base-36 digit printed by `Number.prototype.toString(36)`, already
uppercased as by `.toUpperCase()`: `0`–`9` then `A`–`Z`. -/
def base36Char (d : Fin 36) : Char :=
  if d.val < 10 then Char.ofNat (48 + d.val) else Char.ofNat (55 + d.val)

/-- The room code computed by
`Math.random().toString(36).substring(2, 8).toUpperCase()`.
`toString(36)` prints `"0."` followed by the base-36 digits of the
fraction in shortest round-tripping form (so trailing zero digits are
omitted, and the digit list may have fewer than 6 entries — e.g.
`(0.5).toString(36) = "0.i"`); `substring(2, 8)` keeps at most the first 6
digits.  `digits` is that printed digit list. -/
def createRoomCode (digits : List (Fin 36)) : String :=
  String.mk ((digits.take 6).map base36Char)

/-- The fresh room built by `initializeSimulatedGame`: empty board, X to
move, host holds X, no joiner, no winner. -/
def newSimGame (gameId : String) : SimulatedGame where
  id := gameId
  squares := emptyBoard
  isXNext := true
  playerX := "host"
  playerO := none
  winner := Outcome.inProgress

/-- `initializeSimulatedGame(gameId)`: registers the fresh room and marks
the opponent as not yet connected.  (The 3-second simulated-join timer is
a scheduling concern outside this state model.) -/
def initializeSimulatedGame (s : GameState) (gameId : String) : GameState :=
  { s with
    simulatedGames := insertGame s.simulatedGames gameId (newSimGame gameId)
    opponentConnected := false }

/-- `createRoom()`: picks the room code from the random draw, marks this
client as host with symbol X, and (in simulated mode) initializes the
room. -/
def createRoom (s : GameState) (digits : List (Fin 36)) : GameState :=
  let code := createRoomCode digits
  let s1 := { s with roomCode := code, isHost := true, playerSymbol := Player.X }
  if s.useSimulatedMode = true then initializeSimulatedGame s1 code else s1

/-- The guards of `handleSquareClick` all pass: no winner yet, target cell
empty, online play only on this client's turn with a connected opponent,
computer play only on the human's (X's) turn. -/
def accepts (s : GameState) (j : Nat) : Prop :=
  s.winner = Outcome.inProgress ∧ s.squares.getD j none = none ∧
    (s.gameMode = Mode.online → s.isMyTurn = true ∧
      s.opponentConnected = true) ∧
    (s.gameMode = Mode.computer → s.isXNext = true)

instance (s : GameState) (j : Nat) : Decidable (accepts s j) := by
  unfold accepts; infer_instance

/-! ### Board evaluator lemmas -/

theorem lineWinner_eq_tripleMark (b : Board) (l : Nat × Nat × Nat) :
    lineWinner b l = tripleMark b l := by
  unfold lineWinner tripleMark
  rcases h1 : b.getD l.1 none with _ | p
  · rfl
  · rcases h2 : b.getD l.2.1 none with _ | q
    · simp
    · rcases h3 : b.getD l.2.2 none with _ | r
      · simp
      · dsimp only
        by_cases hq : p = q <;> by_cases hr : p = r
        · subst hq; subst hr; simp
        · rw [if_neg, if_neg]
          · exact fun h => hr h.2
          · exact fun h => hr (Option.some_inj.mp h.2).symm
        · rw [if_neg, if_neg]
          · exact fun h => hq h.1
          · exact fun h => hq (Option.some_inj.mp h.1).symm
        · rw [if_neg, if_neg]
          · exact fun h => hq h.1
          · exact fun h => hq (Option.some_inj.mp h.1).symm

theorem firstWin_eq_head_filterMap (b : Board) (ls : List (Nat × Nat × Nat)) :
    firstWin b ls = (ls.filterMap (fun l => tripleMark b l)).head? := by
  induction ls with
  | nil => rfl
  | cons l ls ih =>
      unfold firstWin
      rw [lineWinner_eq_tripleMark]
      rcases h : tripleMark b l with _ | p
      · simpa [List.filterMap_cons, h] using ih
      · simp [List.filterMap_cons, h]

theorem tripleMark_eq_some_iff (b : Board) (p : Player) (l : Nat × Nat × Nat) :
    tripleMark b l = some p ↔ winsLine b p l := by
  unfold tripleMark winsLine
  rcases h1 : b.getD l.1 none with _ | a
  · simp
  · rcases h2 : b.getD l.2.1 none with _ | c
    · simp
    · rcases h3 : b.getD l.2.2 none with _ | d
      · simp
      · dsimp only
        by_cases hcd : a = c ∧ a = d
        · obtain ⟨hc, hd⟩ := hcd
          subst hc; subst hd; simp
        · rw [if_neg hcd]
          constructor
          · intro h; cases h
          · rintro ⟨ha, hc, hd⟩
            rw [Option.some_inj] at ha hc hd
            exact absurd ⟨ha.trans hc.symm, ha.trans hd.symm⟩ hcd

theorem firstWin_isSome_of_winsLine (b : Board) (p : Player)
    (l : Nat × Nat × Nat) (ls : List (Nat × Nat × Nat))
    (hl : l ∈ ls) (hw : winsLine b p l) : ∃ q, firstWin b ls = some q := by
  induction ls with
  | nil => cases hl
  | cons hd tl ih =>
      unfold firstWin
      rcases h : lineWinner b hd with _ | q
      · rcases List.mem_cons.mp hl with rfl | htl
        · rw [lineWinner_eq_tripleMark] at h
          rw [← tripleMark_eq_some_iff] at hw
          exact absurd hw (by simp [h])
        · exact ih htl
      · exact ⟨q, rfl⟩

theorem not_hasWin_of_inProgress (b : Board) (p : Player)
    (h : calculateWinner b = Outcome.inProgress) : ¬ hasWin b p := by
  rintro ⟨l, hl, hw⟩
  obtain ⟨q, hq⟩ := firstWin_isSome_of_winsLine b p l lines hl hw
  unfold calculateWinner at h
  rw [hq] at h
  cases h

theorem getD_set_of_ne_mark (b : Board) (i m : Nat) (p q : Player)
    (hne : q ≠ p)
    (h : (b.set i (some p)).getD m none = some q) :
    b.getD m none = some q := by
  by_cases him : i = m
  · subst him
    by_cases hlen : i < b.length
    · rw [List.getD_eq_getElem?_getD, List.getElem?_set_self hlen] at h
      simp at h
      exact absurd h.symm hne
    · rwa [List.set_eq_of_length_le (Nat.le_of_not_lt hlen)] at h
  · rwa [List.getD_eq_getElem?_getD, List.getElem?_set_ne him,
      ← List.getD_eq_getElem?_getD] at h

theorem winsLine_of_set (b : Board) (i : Nat) (p q : Player)
    (l : Nat × Nat × Nat) (hne : q ≠ p)
    (h : winsLine (b.set i (some p)) q l) : winsLine b q l := by
  obtain ⟨h1, h2, h3⟩ := h
  exact ⟨getD_set_of_ne_mark b i l.1 p q hne h1,
    getD_set_of_ne_mark b i l.2.1 p q hne h2,
    getD_set_of_ne_mark b i l.2.2 p q hne h3⟩

theorem Player.other_ne (p : Player) : p.other ≠ p := by
  cases p <;> simp [Player.other]

theorem calculateWinner_eq_evaluateSpec (b : Board) :
    calculateWinner b = evaluateSpec b := by
  unfold calculateWinner evaluateSpec
  rw [firstWin_eq_head_filterMap]

/-- Placing `p` at the empty cell `j` of `b` wins the game for `p`
(the property `findWinningMove` scans for, for in-range `j`). -/
def winsAt (b : Board) (p : Player) (j : Nat) : Prop :=
  j < b.length ∧ b.getD j none = none ∧
    calculateWinner (b.set j (some p)) = Outcome.win p

instance (b : Board) (p : Player) (j : Nat) : Decidable (winsAt b p j) := by
  unfold winsAt; infer_instance

theorem findWinningMoveAux_append (b : Board) (p : Player) (l1 l2 : List Nat) :
    findWinningMoveAux b p (l1 ++ l2) =
      if findWinningMoveAux b p l1 = -1 then findWinningMoveAux b p l2
      else findWinningMoveAux b p l1 := by
  induction l1 with
  | nil =>
      have h : findWinningMoveAux b p [] = -1 := rfl
      rw [List.nil_append, h, if_pos rfl]
  | cons i rest ih =>
      have hstep : ∀ l : List Nat, findWinningMoveAux b p (i :: l) =
          if b.getD i none = none ∧
              calculateWinner (b.set i (some p)) = Outcome.win p
          then (i : Int) else findWinningMoveAux b p l := fun _ => rfl
      rw [List.cons_append, hstep, hstep]
      by_cases h : b.getD i none = none ∧
          calculateWinner (b.set i (some p)) = Outcome.win p
      · have hne : ((i : Int)) ≠ -1 := by omega
        rw [if_pos h, if_pos h, if_neg hne]
      · rw [if_neg h, if_neg h]
        exact ih

theorem findWinningMoveAux_range_spec (b : Board) (p : Player) : ∀ n : Nat,
    (findWinningMoveAux b p (List.range n) = -1 →
      ∀ j, j < n → ¬ (b.getD j none = none ∧
        calculateWinner (b.set j (some p)) = Outcome.win p)) ∧
    (∀ k : Nat, findWinningMoveAux b p (List.range n) = (k : Int) →
      k < n ∧ b.getD k none = none ∧
        calculateWinner (b.set k (some p)) = Outcome.win p ∧
        ∀ j, j < k → ¬ (b.getD j none = none ∧
          calculateWinner (b.set j (some p)) = Outcome.win p)) ∧
    (findWinningMoveAux b p (List.range n) = -1 ∨
      ∃ k : Nat, findWinningMoveAux b p (List.range n) = (k : Int)) := by
  intro n
  induction n with
  | zero =>
      refine ⟨fun _ j hj => absurd hj (by omega), fun k hk => ?_, Or.inl rfl⟩
      have hz : findWinningMoveAux b p (List.range 0) = -1 := rfl
      rw [hz] at hk
      exact absurd hk (by omega)
  | succ n ih =>
      obtain ⟨ih1, ih2, ih3⟩ := ih
      have hsplit := findWinningMoveAux_append b p (List.range n) [n]
      rw [← List.range_succ] at hsplit
      have hsingle : findWinningMoveAux b p [n] =
          if b.getD n none = none ∧
              calculateWinner (b.set n (some p)) = Outcome.win p
          then (n : Int) else -1 := rfl
      by_cases hA : findWinningMoveAux b p (List.range n) = -1
      · rw [if_pos hA, hsingle] at hsplit
        by_cases hp : b.getD n none = none ∧
            calculateWinner (b.set n (some p)) = Outcome.win p
        · rw [if_pos hp] at hsplit
          refine ⟨fun hc => ?_, fun k hk => ?_, Or.inr ⟨n, hsplit⟩⟩
          · rw [hsplit] at hc; exact absurd hc (by omega)
          · rw [hsplit] at hk
            have hkn : k = n := by omega
            subst hkn
            exact ⟨by omega, hp.1, hp.2, fun j hj => ih1 hA j hj⟩
        · rw [if_neg hp] at hsplit
          refine ⟨fun _ j hj => ?_, fun k hk => ?_, Or.inl hsplit⟩
          · rcases Nat.lt_succ_iff_lt_or_eq.mp hj with hj' | rfl
            · exact ih1 hA j hj'
            · exact hp
          · rw [hsplit] at hk; exact absurd hk (by omega)
      · rw [if_neg hA] at hsplit
        obtain ⟨k', hk'⟩ := ih3.resolve_left hA
        obtain ⟨hk'n, hk'e, hk'w, hk'min⟩ := ih2 k' hk'
        rw [hk'] at hsplit
        refine ⟨fun hc => ?_, fun k hk => ?_, Or.inr ⟨k', hsplit⟩⟩
        · rw [hsplit] at hc; exact absurd hc (by omega)
        · rw [hsplit] at hk
          have hkk : k = k' := by omega
          subst hkk
          exact ⟨by omega, hk'e, hk'w, hk'min⟩

theorem not_all_isSome_of_empty_cell (b : Board) (k : Nat)
    (hk : k < b.length) (he : b.getD k none = none) :
    b.all (fun sq => sq.isSome) = false := by
  rw [Bool.eq_false_iff]
  intro hall
  rw [List.all_eq_true] at hall
  rw [List.getD_eq_getElem?_getD, List.getElem?_eq_getElem hk] at he
  simp only [Option.getD_some] at he
  have hmem := List.getElem_mem hk
  have := hall _ hmem
  rw [he] at this
  cases this

theorem reachableAux_not_both (b : Board) (p : Player)
    (h : ReachableAux b p) :
    ¬ (hasWin b Player.X ∧ hasWin b Player.O) := by
  induction h with
  | init => decide
  | move b p i _ hprog _ _ _ =>
      rintro ⟨hX, hO⟩
      have hq : hasWin (b.set i (some p)) p.other := by
        cases p
        · exact hO
        · exact hX
      obtain ⟨l, hl, hw⟩ := hq
      exact not_hasWin_of_inProgress b p.other hprog
        ⟨l, hl, winsLine_of_set b i p p.other l (Player.other_ne p) hw⟩

/-! ### Claim theorems -/

/-- C1: the evaluator returns exactly one outcome, computed as the spec
describes it — the first all-equal non-empty triple among the 8 fixed
lines (rows, columns, diagonals, in that order) gives a win for its mark,
a full board with no winning triple is a draw, and anything else is in
progress — and on boards reachable by legal alternating play, wins for X
and for O are mutually exclusive. -/
theorem claim_evaluator :
    (∀ b : Board, calculateWinner b = evaluateSpec b) ∧
    (∀ b : Board, Reachable b →
      ¬ (hasWin b Player.X ∧ hasWin b Player.O)) := by
  refine ⟨calculateWinner_eq_evaluateSpec, ?_⟩
  rintro b ⟨p, h⟩
  exact reachableAux_not_both b p h

theorem claim_evaluator_witness :
    Reachable (emptyBoard.set 0 (some Player.X)) ∧
    ¬ (hasWin (emptyBoard.set 0 (some Player.X)) Player.X ∧
        hasWin (emptyBoard.set 0 (some Player.X)) Player.O) := by
  have hr : Reachable (emptyBoard.set 0 (some Player.X)) :=
    ⟨Player.other Player.X,
      ReachableAux.move emptyBoard Player.X 0 ReachableAux.init (by decide)
        (by decide) (by decide)⟩
  exact ⟨hr, claim_evaluator.2 _ hr⟩

/-- C3: `findWinningMove` returns the least index of an empty cell where
placing the player's mark makes `calculateWinner` report a win for that
player, scanning indices in ascending order, and `-1` exactly when no such
single move exists. -/
theorem claim_findWinningMove_first :
    ∀ (b : Board) (p : Player),
      (∀ k : Nat, findWinningMove b p = (k : Int) →
        winsAt b p k ∧ ∀ j, j < k → ¬ winsAt b p j) ∧
      (findWinningMove b p = -1 → ∀ j, ¬ winsAt b p j) ∧
      (findWinningMove b p = -1 ∨
        ∃ k : Nat, findWinningMove b p = (k : Int) ∧ winsAt b p k) := by
  intro b p
  obtain ⟨h1, h2, h3⟩ := findWinningMoveAux_range_spec b p b.length
  refine ⟨fun k hk => ?_, fun hne j hwj => ?_, ?_⟩
  · obtain ⟨hlt, he, hw, hmin⟩ := h2 k hk
    exact ⟨⟨hlt, he, hw⟩, fun j hj hwj => hmin j hj ⟨hwj.2.1, hwj.2.2⟩⟩
  · exact h1 hne j hwj.1 ⟨hwj.2.1, hwj.2.2⟩
  · rcases h3 with h | ⟨k, hk⟩
    · exact Or.inl h
    · obtain ⟨hlt, he, hw, _⟩ := h2 k hk
      exact Or.inr ⟨k, hk, hlt, he, hw⟩

/-- The blocking-scenario board `[X, X, null, null, O, null, null, null,
null]`. -/
def winBoardX : Board :=
  [some Player.X, some Player.X, none, none, some Player.O,
   none, none, none, none]

theorem claim_findWinningMove_first_witness :
    winsAt winBoardX Player.X 2 ∧
      ∀ j, j < 2 → ¬ winsAt winBoardX Player.X j :=
  (claim_findWinningMove_first winBoardX Player.X).1 2 (by decide)

/-- C2: the computer policy plays its own winning move when one exists
(the lowest-index one, being the value of `findWinningMove`), otherwise
blocks the opponent's winning move; and on the scenario board
`[X, X, null, null, O, null, null, null, null]` it blocks at index 2,
whatever the random draws. -/
theorem claim_computer_priority :
    (∀ (b : Board) (c r k : Nat),
      calculateWinner b = Outcome.inProgress →
      findWinningMove b Player.O = (k : Int) →
      makeComputerMove b c r = some k) ∧
    (∀ (b : Board) (c r k : Nat),
      calculateWinner b = Outcome.inProgress →
      findWinningMove b Player.O = -1 →
      findWinningMove b Player.X = (k : Int) →
      makeComputerMove b c r = some k) ∧
    (∀ c r : Nat, makeComputerMove winBoardX c r = some 2) := by
  have hwin : ∀ (b : Board) (c r k : Nat),
      calculateWinner b = Outcome.inProgress →
      findWinningMove b Player.O = (k : Int) →
      makeComputerMove b c r = some k := by
    intro b c r k hprog hk
    obtain ⟨hlt, he, _, _⟩ :=
      (findWinningMoveAux_range_spec b Player.O b.length).2.1 k hk
    have hfull := not_all_isSome_of_empty_cell b k hlt he
    unfold makeComputerMove
    rw [if_neg (by rw [hprog, hfull]; simp)]
    simp only [hk]
    rw [if_pos (by omega)]
    simp
  have hblock : ∀ (b : Board) (c r k : Nat),
      calculateWinner b = Outcome.inProgress →
      findWinningMove b Player.O = -1 →
      findWinningMove b Player.X = (k : Int) →
      makeComputerMove b c r = some k := by
    intro b c r k hprog hkO hkX
    obtain ⟨hlt, he, _, _⟩ :=
      (findWinningMoveAux_range_spec b Player.X b.length).2.1 k hkX
    have hfull := not_all_isSome_of_empty_cell b k hlt he
    unfold makeComputerMove
    rw [if_neg (by rw [hprog, hfull]; simp)]
    simp only [hkO, hkX]
    rw [if_neg (by simp), if_pos (by omega)]
    simp
  exact ⟨hwin, hblock,
    fun c r => hblock winBoardX c r 2 (by decide) (by decide) (by decide)⟩

/-- A board where O can win at once: `[O, O, null, X, X, null, null, null,
null]`. -/
def winBoardO : Board :=
  [some Player.O, some Player.O, none, some Player.X, some Player.X,
   none, none, none, none]

theorem claim_computer_priority_witness :
    makeComputerMove winBoardO 0 0 = some 2 ∧
      makeComputerMove winBoardX 1 3 = some 2 :=
  ⟨claim_computer_priority.1 winBoardO 0 0 2 (by decide) (by decide),
   claim_computer_priority.2.1 winBoardX 1 3 2 (by decide) (by decide)
     (by decide)⟩

/-- C4: `handleSquareClick` returns the state unchanged — board, history,
move pointer, turn and outcome included — when the game is over, when the
target cell is occupied, when it is not this client's turn online, or when
it is the computer's turn in computer mode; in particular a click on an
occupied cell never changes the board. -/
theorem claim_submit_rejected :
    (∀ (s : GameState) (i : Nat),
      (s.winner ≠ Outcome.inProgress ∨ s.squares.getD i none ≠ none ∨
        (s.gameMode = Mode.online ∧ s.isMyTurn = false) ∨
        (s.gameMode = Mode.computer ∧ s.isXNext = false)) →
      handleSquareClick s i = s) ∧
    (∀ (s : GameState) (i : Nat), s.squares.getD i none ≠ none →
      (handleSquareClick s i).squares = s.squares) := by
  have hrej : ∀ (s : GameState) (i : Nat),
      (s.winner ≠ Outcome.inProgress ∨ s.squares.getD i none ≠ none ∨
        (s.gameMode = Mode.online ∧ s.isMyTurn = false) ∨
        (s.gameMode = Mode.computer ∧ s.isXNext = false)) →
      handleSquareClick s i = s := by
    intro s i h
    unfold handleSquareClick
    by_cases h1 : s.winner ≠ Outcome.inProgress ∨ s.squares.getD i none ≠ none
    · rw [if_pos h1]
    · rw [if_neg h1]
      by_cases h2 : s.gameMode = Mode.online ∧ s.isMyTurn = false
      · rw [if_pos h2]
      · rw [if_neg h2]
        by_cases h3 : s.gameMode = Mode.online ∧ s.opponentConnected = false
        · rw [if_pos h3]
        · rw [if_neg h3]
          by_cases h4 : s.gameMode = Mode.computer ∧ s.isXNext = false
          · rw [if_pos h4]
          · exfalso
            rcases h with h | h | h | h
            · exact h1 (Or.inl h)
            · exact h1 (Or.inr h)
            · exact h2 h
            · exact h4 h
  exact ⟨hrej, fun s i h => by rw [hrej s i (Or.inr (Or.inl h))]⟩

/-- A state whose cell 0 is already occupied. -/
def occupiedState : GameState :=
  { initialState with squares := emptyBoard.set 0 (some Player.X) }

theorem claim_submit_rejected_witness :
    handleSquareClick occupiedState 0 = occupiedState ∧
      (handleSquareClick occupiedState 0).squares = occupiedState.squares :=
  ⟨claim_submit_rejected.1 occupiedState 0 (Or.inr (Or.inl (by decide))),
   claim_submit_rejected.2 occupiedState 0 (by decide)⟩

/-- C5 counterexample: `resetGame` sets `history` to the empty list, not
to a one-entry list holding the initial board, so the claim's "History is
the single initial entry" fails on the very first reset. -/
theorem claim_reset_cex :
    (resetGame initialState).history.length = 0 ∧
      (resetGame initialState).history.length ≠ 1 :=
  ⟨rfl, by decide⟩

/-- C5 (amended): after `resetGame`, from any state, the board is
all-empty, the history is the EMPTY list (the initial empty board is not
stored as an entry — history index 0 will hold the board after the first
move), the move pointer is 0, the outcome is in-progress and X is next to
move. -/
theorem claim_reset_clears (s : GameState) :
    (resetGame s).squares = emptyBoard ∧
    (resetGame s).isXNext = true ∧
    (resetGame s).winner = Outcome.inProgress ∧
    (resetGame s).history = [] ∧
    (resetGame s).currentMove = 0 := by
  unfold resetGame updateSimulatedGame
  by_cases h : s.gameMode = Mode.online
  · rw [if_pos h]
    by_cases h2 : s.useSimulatedMode = true ∧ s.roomCode ≠ ""
    · rw [if_pos h2]
      rcases hlook : lookupGame s.simulatedGames s.roomCode with _ | g <;> simp
    · rw [if_neg h2]; simp
  · rw [if_neg h]; simp

theorem jumpToMove_valid (s : GameState) (i : Nat)
    (hm : s.gameMode ≠ Mode.online) (hi : i < s.history.length) :
    jumpToMove s (i : Int) =
      ({ s with
          currentMove := i
          squares :=
            (s.history.getD i { squares := [], currentPlayer := none }).squares
          isXNext := decide
            ((s.history.getD i
              { squares := [], currentPlayer := none }).currentPlayer =
              some Player.O)
          winner := calculateWinner
            (s.history.getD i
              { squares := [], currentPlayer := none }).squares }, none) := by
  unfold jumpToMove
  rw [if_neg (by omega), if_neg hm]
  rfl

theorem jumpToMove_valid_fst (s : GameState) (i : Nat)
    (hm : s.gameMode ≠ Mode.online) (hi : i < s.history.length) :
    (jumpToMove s (i : Int)).1 =
      { s with
        currentMove := i
        squares :=
          (s.history.getD i { squares := [], currentPlayer := none }).squares
        isXNext := decide
          ((s.history.getD i
            { squares := [], currentPlayer := none }).currentPlayer =
            some Player.O)
        winner := calculateWinner
          (s.history.getD i
            { squares := [], currentPlayer := none }).squares } := by
  rw [jumpToMove_valid s i hm hi]

theorem handleSquareClick_accepted (s : GameState) (j : Nat)
    (h : accepts s j) (hmode : s.gameMode ≠ Mode.online) :
    handleSquareClick s j =
      { s with
        isXNext := !s.isXNext
        squares :=
          s.squares.set j (some (if s.isXNext then Player.X else Player.O))
        history := s.history.take (s.currentMove + 1) ++
          [{ squares := s.squares.set j
               (some (if s.isXNext then Player.X else Player.O)),
             currentPlayer := some (if s.isXNext then Player.X else Player.O) }]
        currentMove := (s.history.take (s.currentMove + 1)).length } := by
  obtain ⟨hw, hc, _, hcomp⟩ := h
  unfold handleSquareClick
  rw [if_neg (by rw [hw, hc]; simp),
    if_neg (fun hx => hmode hx.1),
    if_neg (fun hx => hmode hx.1),
    if_neg (by rintro ⟨hcm, hxf⟩
               exact absurd ((hcomp hcm).symm.trans hxf) (by simp))]
  simp only [if_neg hmode, if_pos hmode]
  simp

/-- C6: in a local mode, jumping to a valid history index `i` and then
making an accepted move leaves a history of length `i + 2`: the entries
beyond index `i` are discarded and the new move's snapshot is the sole
entry after index `i`. -/
theorem claim_truncation (s : GameState) (i j : Nat)
    (hmode : s.gameMode = Mode.localMode ∨ s.gameMode = Mode.computer)
    (hi : i < s.history.length)
    (hacc : accepts (jumpToMove s (i : Int)).1 j) :
    (handleSquareClick (jumpToMove s (i : Int)).1 j).history.length = i + 2 ∧
    ∃ e, (handleSquareClick (jumpToMove s (i : Int)).1 j).history =
      s.history.take (i + 1) ++ [e] := by
  have hne : s.gameMode ≠ Mode.online := by
    rcases hmode with h | h <;> simp [h]
  rw [jumpToMove_valid_fst s i hne hi] at hacc ⊢
  rw [handleSquareClick_accepted _ j hacc hne]
  refine ⟨?_, ⟨_, rfl⟩⟩
  show (s.history.take (i + 1) ++ [_]).length = i + 2
  rw [List.length_append, List.length_take]
  simp
  omega

/-- The board after X's opening move at cell 0. -/
def boardOne : Board :=
  [some Player.X, none, none, none, none, none, none, none, none]

/-- The board after X at 0 and O at 4. -/
def boardTwo : Board :=
  [some Player.X, none, none, none, some Player.O, none, none, none, none]

/-- A local-mode session two moves in. -/
def historyState : GameState :=
  { initialState with
    gameMode := Mode.localMode
    squares := boardTwo
    history := [{ squares := boardOne, currentPlayer := some Player.X },
                { squares := boardTwo, currentPlayer := some Player.O }]
    currentMove := 1 }

theorem claim_truncation_witness :
    (handleSquareClick (jumpToMove historyState ((0 : Nat) : Int)).1
        1).history.length = 0 + 2 ∧
    ∃ e, (handleSquareClick (jumpToMove historyState ((0 : Nat) : Int)).1
        1).history = historyState.history.take (0 + 1) ++ [e] :=
  claim_truncation historyState 0 1 (Or.inl rfl) (by decide) (by decide)

/-- C7: in Local or VsComputer mode, jumping to a valid index `i` restores
the board from `History[i]`, sets the pointer to `i`, recomputes the
outcome from the restored board, derives the turn from the stored entry,
and leaves the history untruncated. -/
theorem claim_jump_roundtrip (s : GameState) (i : Nat)
    (hmode : s.gameMode = Mode.localMode ∨ s.gameMode = Mode.computer)
    (hi : i < s.history.length) :
    (jumpToMove s (i : Int)).1.squares =
      (s.history.getD i { squares := [], currentPlayer := none }).squares ∧
    (jumpToMove s (i : Int)).1.currentMove = i ∧
    (jumpToMove s (i : Int)).1.winner = calculateWinner
      (s.history.getD i { squares := [], currentPlayer := none }).squares ∧
    (jumpToMove s (i : Int)).1.isXNext = decide
      ((s.history.getD i
        { squares := [], currentPlayer := none }).currentPlayer =
        some Player.O) ∧
    (jumpToMove s (i : Int)).1.history = s.history := by
  have hne : s.gameMode ≠ Mode.online := by
    rcases hmode with h | h <;> simp [h]
  rw [jumpToMove_valid s i hne hi]
  exact ⟨rfl, rfl, rfl, rfl, rfl⟩

theorem claim_jump_roundtrip_witness :
    (jumpToMove historyState ((0 : Nat) : Int)).1.squares =
      (historyState.history.getD 0
        { squares := [], currentPlayer := none }).squares ∧
    (jumpToMove historyState ((0 : Nat) : Int)).1.currentMove = 0 ∧
    (jumpToMove historyState ((0 : Nat) : Int)).1.winner = calculateWinner
      (historyState.history.getD 0
        { squares := [], currentPlayer := none }).squares ∧
    (jumpToMove historyState ((0 : Nat) : Int)).1.isXNext = decide
      ((historyState.history.getD 0
        { squares := [], currentPlayer := none }).currentPlayer =
        some Player.O) ∧
    (jumpToMove historyState ((0 : Nat) : Int)).1.history =
      historyState.history :=
  claim_jump_roundtrip historyState 0 (Or.inl rfl) (by decide)

/-- A fresh online-mode session: no history yet. -/
def onlineEmptyState : GameState :=
  { initialState with gameMode := Mode.online }

/-- C8 counterexample: in online mode with an empty history,
`jumpToMove 0` hits the range guard first and returns silently — no
`OperationNotAllowed` signal is raised, contradicting "for every
index". -/
theorem claim_online_jump_cex :
    onlineEmptyState.gameMode = Mode.online ∧
    (jumpToMove onlineEmptyState 0).2 ≠ some Signal.notAvailable :=
  ⟨rfl, by decide⟩

/-- C8 (amended): in online mode `jumpToMove` never changes the state, and
for every index inside `[0, History.length)` it raises the
`OperationNotAllowed` signal; out-of-range indices return silently. -/
theorem claim_online_jump (s : GameState) (i : Int)
    (h : s.gameMode = Mode.online) :
    (jumpToMove s i).1 = s ∧
    (0 ≤ i → i < (s.history.length : Int) →
      (jumpToMove s i).2 = some Signal.notAvailable) := by
  unfold jumpToMove
  by_cases hr : i < 0 ∨ (s.history.length : Int) ≤ i
  · rw [if_pos hr]
    exact ⟨rfl, fun h1 h2 => by rcases hr with hr | hr <;> omega⟩
  · rw [if_neg hr, if_pos h]
    exact ⟨rfl, fun _ _ => rfl⟩

/-- An online-mode session with one history entry. -/
def onlineHistState : GameState :=
  { initialState with
    gameMode := Mode.online
    history := [{ squares := boardOne, currentPlayer := some Player.X }] }

theorem claim_online_jump_witness :
    (jumpToMove onlineHistState 0).1 = onlineHistState ∧
    (jumpToMove onlineHistState 0).2 = some Signal.notAvailable := by
  have h := claim_online_jump onlineHistState 0 rfl
  exact ⟨h.1, h.2 (by decide) (by decide)⟩

/-- C10: for any index outside `[0, History.length)`, `jumpToMove` is a
silent no-op: the state is unchanged and no signal is raised. -/
theorem claim_jump_out_of_range (s : GameState) (i : Int)
    (h : i < 0 ∨ (s.history.length : Int) ≤ i) :
    jumpToMove s i = (s, none) := by
  unfold jumpToMove
  rw [if_pos h]

theorem claim_jump_out_of_range_witness :
    jumpToMove initialState (-1) = (initialState, none) :=
  claim_jump_out_of_range initialState (-1) (Or.inl (by decide))

/-- C9: with the random draw `Math.random() = 0.5` — printed in base 36 as
`"0.i"`, i.e. the single digit 18 — `createRoom` produces the room code
`"I"` of length 1, not 6, contradicting the source's own comment
"Generate a random 6-character room code".  The rest of the claim holds:
the room is registered with an empty board, the host holds X, and there is
no joiner. -/
theorem claim_room_code_bug :
    createRoomCode [(18 : Fin 36)] = "I" ∧
    (createRoomCode [(18 : Fin 36)]).length = 1 ∧
    lookupGame (createRoom initialState [(18 : Fin 36)]).simulatedGames "I" =
      some { id := "I", squares := emptyBoard, isXNext := true,
             playerX := "host", playerO := none,
             winner := Outcome.inProgress } ∧
    (createRoom initialState [(18 : Fin 36)]).playerSymbol = Player.X ∧
    (createRoom initialState [(18 : Fin 36)]).isHost = true := by
  refine ⟨rfl, rfl, ?_, rfl, rfl⟩
  rfl

end TicTacToe
